import Mathlib

/-!
Verification of the retrieval pipeline of YinChao126/rag_basic.

The development shallowly embeds the Python source:

* `samples/rag_basic/chunker.py` — `simple_chunk_text` (fixed-window chunking);
* `samples/rag_basic/embedder.py` and `samples/rag_basic/store_manager.py` —
  batched embedding (`embed_text`, `QwenEmbeddings.embed_documents`) and the
  count check in `embedder.main`;
* `samples/rag_basic/llm_with_rag.py` — `make_prompt`;
* `samples/quickstart/rag_basic.py` — `build_prompt` and the inline
  fixed-window chunking loop;
* `samples/rag_basic/extractor.py` — the five `extract_*` functions.

Texts are `List Char` (Python strings are sequences of code points), machine
integers are `Int` where Python arithmetic may go negative, and while-loops
become fuel-indexed recursive functions whose fuel exhaustion is an explicit
`Option.none` result, so that termination of the source loop is itself a
provable statement rather than an assumption.  Calls to external services
(embedding provider, filesystem, extraction libraries) are oracle parameters.
-/

/-- Python `str.isspace` on a single character, restricted to the ASCII
whitespace characters Python strips by default. -/
def pyIsSpace (c : Char) : Bool :=
  c == ' ' || c == '\t' || c == '\n' || c == '\r' || c == '\x0b' || c == '\x0c'

/-- Python `str.lstrip()`. -/
def pyLstrip (l : List Char) : List Char :=
  l.dropWhile pyIsSpace

/-- Python `str.rstrip()`. -/
def pyRstrip (l : List Char) : List Char :=
  (l.reverse.dropWhile pyIsSpace).reverse

/-- Python `str.strip()`: drop leading and trailing whitespace. -/
def pyStrip (l : List Char) : List Char :=
  pyRstrip (pyLstrip l)

/-- `pyStrip` lifted to `String`. -/
def pyStripS (s : String) : String :=
  String.mk (pyStrip s.data)

/-- Python slice `l[a:b]` for `0 ≤ a ≤ b` (the only shape the embedded code
produces; both endpoints are clamped to the list length as in Python). -/
def pySlice (l : List Char) (a b : Int) : List Char :=
  (l.drop a.toNat).take (b - a).toNat

/-!
## chunker.py — `simple_chunk_text`

Python source (lines 22–41):

    if chunk_size <= 0: raise ValueError("chunk_size must be > 0")
    if overlap >= chunk_size: raise ValueError("overlap must be < chunk_size")
    chunks = []
    start = 0
    L = len(text)
    while start < L:
        end = min(start + chunk_size, L)
        chunk = text[start:end].strip()
        if chunk: chunks.append(chunk)
        start = end - overlap
        if start < 0: start = 0
        if (start >= L) or (end == L): break
    return chunks
-/

/-- `end = min(start + chunk_size, L)` of one loop iteration. -/
def winEnd (text : List Char) (chunk_size start : Int) : Int :=
  min (start + chunk_size) (text.length : Int)

/-- `chunk = text[start:end].strip()` of one loop iteration. -/
def winChunk (text : List Char) (chunk_size start : Int) : List Char :=
  pyStrip (pySlice text start (winEnd text chunk_size start))

/-- `start = end - overlap; if start < 0: start = 0` of one loop iteration. -/
def nextStart (text : List Char) (chunk_size overlap start : Int) : Int :=
  if winEnd text chunk_size start - overlap < 0 then 0
  else winEnd text chunk_size start - overlap

/-- `chunks.append(chunk) if chunk` of one loop iteration. -/
def pushChunk (text : List Char) (chunk_size start : Int)
    (acc : List (List Char)) : List (List Char) :=
  if (winChunk text chunk_size start).isEmpty then acc
  else acc ++ [winChunk text chunk_size start]

/-- One-to-one embedding of the `while` loop of `simple_chunk_text`.  The
`Nat` argument is fuel: `none` means the loop did not finish within that many
iterations.  `start` is an `Int` exactly as in Python (the clamp `if start < 0`
is reachable there). -/
def chunkLoopF (text : List Char) (chunk_size overlap : Int) :
    Nat → Int → List (List Char) → Option (List (List Char))
  | 0, start, acc =>
      if start < (text.length : Int) then none else some acc
  | f + 1, start, acc =>
      if start < (text.length : Int) then
        if nextStart text chunk_size overlap start ≥ (text.length : Int) ∨
            winEnd text chunk_size start = (text.length : Int) then
          some (pushChunk text chunk_size start acc)
        else
          chunkLoopF text chunk_size overlap f
            (nextStart text chunk_size overlap start)
            (pushChunk text chunk_size start acc)
      else some acc

/-- `simple_chunk_text` (chunker.py, lines 22–41).  The two `raise ValueError`
guards become `Except.error` with the source message; the loop runs with fuel
`len(text) + 1`, which the termination theorem shows is always enough. -/
def simple_chunk_text (text : List Char) (chunk_size overlap : Int) :
    Except String (Option (List (List Char))) :=
  if chunk_size ≤ 0 then Except.error "chunk_size must be > 0"
  else if overlap ≥ chunk_size then Except.error "overlap must be < chunk_size"
  else Except.ok (chunkLoopF text chunk_size overlap (text.length + 1) 0 [])

/-!
## embedder.py / store_manager.py — batched embedding

`embed_text` (embedder.py, lines 11–36) and `QwenEmbeddings.embed_documents`
(store_manager.py, lines 28–42) share the same batching logic:

    if len(texts) > DEFAULT_TOP_RERANK:          # DEFAULT_TOP_RERANK = 10
        embeddings = []
        for i in range(0, len(texts), DEFAULT_TOP_RERANK):
            batch = texts[i:i+DEFAULT_TOP_RERANK]
            res = client.embeddings.create(model=model, input=batch)
            embeddings.extend([item.embedding for item in res.data])
    else:
        res = client.embeddings.create(model=model, input=texts)
        embeddings = [item.embedding for item in res.data]

The provider call `client.embeddings.create` is an oracle parameter
`provider : List String → List V` returning one vector list per batch.
-/

/-- The successive slices `texts[i:i+bs]` for `i in range(0, len(texts), bs)`;
for `bs = 10` these are exactly the batches the `for` loop sends. -/
def embedBatches (bs : Nat) : List String → List (List String)
  | [] => []
  | t :: ts => (t :: ts.take (bs - 1)) :: embedBatches bs (ts.drop (bs - 1))
termination_by l => l.length
decreasing_by
  simp only [List.length_drop, List.length_cons]
  omega

/-- `DEFAULT_TOP_RERANK` (embedder.py line 9, store_manager.py line 18). -/
def DEFAULT_TOP_RERANK : Nat := 10

/-- The list branch of `embed_text` (embedder.py, lines 24–36), identical to
`QwenEmbeddings.embed_documents` (store_manager.py, lines 28–42): batch when
more than `DEFAULT_TOP_RERANK` inputs, otherwise one provider call. -/
def embed_text {V : Type} (provider : List String → List V)
    (texts : List String) : List V :=
  if texts.length > DEFAULT_TOP_RERANK then
    ((embedBatches DEFAULT_TOP_RERANK texts).map provider).flatten
  else
    provider texts

/-- The count check of `embedder.main` (embedder.py, lines 96–97):

    if len(vectors) != len(texts):
        raise RuntimeError("embeddings 数量与文本数量不一致")
-/
def embed_main_check {V : Type} (provider : List String → List V)
    (texts : List String) : Except String (List V) :=
  let vectors := embed_text provider texts
  if vectors.length ≠ texts.length then
    Except.error "embeddings 数量与文本数量不一致"
  else Except.ok vectors

/-!
## Prompt assembly — `make_prompt` (llm_with_rag.py) and `build_prompt`
(quickstart/rag_basic.py)
-/

/-- A retrieval result as both assemblers consume it: a langchain `Document`
with `page_content` and `metadata` from which only `source` is read, via
`d.metadata.get("source", "unknown")`. -/
structure RDoc where
  page_content : String
  metadata_source : Option String
deriving DecidableEq

/-- `d.metadata.get("source", "unknown")`. -/
def srcStr (d : RDoc) : String :=
  d.metadata_source.getD "unknown"

/-- One labeled context part, `f"[片段 {i} | 来源: {src}]\n{text}\n"` —
the format string is byte-identical in both assemblers
(llm_with_rag.py line 31, quickstart/rag_basic.py line 217). -/
def fmtPart (i : Nat) (d : RDoc) : String :=
  "[片段 " ++ toString i ++ " | 来源: " ++ srcStr d ++ "]\n" ++
    d.page_content ++ "\n"

/-- The `parts` list built by `for i, d in enumerate(docs, start=1)`;
the first argument is the running 1-based label. -/
def promptParts (i : Nat) : List RDoc → List String
  | [] => []
  | d :: ds => fmtPart i d :: promptParts (i + 1) ds

/-- The fixed instruction opening `make_prompt`'s prompt
(llm_with_rag.py, lines 33–35). -/
def mkHeader : String :=
  "下面是检索到的知识片段（仅供参考）。请**仅基于这些片段**回答用户问题，如果片段中没有相关信息，请回答“我不知道”。\n\n"

/-- The fixed instruction closing `make_prompt`'s prompt
(llm_with_rag.py, line 36). -/
def mkTail : String :=
  "\n\n请给出简洁准确的回答，并在末尾列出引用来源。"

/-- `make_prompt` (llm_with_rag.py, lines 26–38).  Note there is no special
branch for an empty `docs` list: the generic template is produced with an
empty context section. -/
def make_prompt (query : String) (docs : List RDoc) : String :=
  mkHeader ++ String.intercalate "\n" (promptParts 1 docs) ++
    "\n用户问题：" ++ query ++ mkTail

/-- The fixed instruction opening `build_prompt`'s non-empty prompt
(quickstart/rag_basic.py, lines 221–222). -/
def bpHeader : String :=
  "下面是检索到的知识片段（可能有冗余），请 **只基于这些片段** 回答问题。\n如果片段中没有相关信息，请回答\"我不知道\"。\n\n"

/-- The fixed instruction closing `build_prompt`'s non-empty prompt
(quickstart/rag_basic.py, line 225). -/
def bpTail : String :=
  "请给出简洁准确的回答，并在最后列出引用来源（文件名和片段编号）。"

/-- `build_prompt` (quickstart/rag_basic.py, lines 198–227), including the
empty-results branch of lines 209–210. -/
def build_prompt (query : String) (docs : List RDoc) : String :=
  if docs.isEmpty then
    "用户问题：" ++ query ++ "\n\n注意：未检索到相关文档，请回答\"我不知道\"。"
  else
    bpHeader ++ "已检索到的片段：\n" ++
      String.intercalate "\n" (promptParts 1 docs) ++ "\n\n用户问题：" ++
      query ++ "\n\n" ++ bpTail

/-!
## extractor.py — the five `extract_*` functions

Each function has the shape

    text_content = ""
    try:
        if not os.path.exists(path): raise FileNotFoundError(f"K 文件不存在: {path}")
        ... library calls building text_content ...
    except FileNotFoundError as fnf_err:
        text_content = f"[ERROR] 文件未找到: {fnf_err}"
    except Exception as e:
        text_content = f"[ERROR] 从 K '{path}' 提取文本时出错: {e}"
    return text_content.strip()

The filesystem check is the oracle `ex : Bool` and the library interaction is
the oracle `body : Except String String` (`Except.error m` models the body
raising an exception whose string form is `m`; `Except.ok t` models the body
completing with `text_content = t`).
-/

/-- A single-quote character, `Char.ofNat 39`. -/
def sglQuote : String :=
  String.mk [Char.ofNat 39]

/-- Shared try/except shell of the extractor functions.  `kindWord` is the
file-kind word of the not-found message (for example `"PDF"`), `fromWord` the
file-kind word of the generic error message. -/
def extractGuard (kindWord fromWord : String) (path : String) (ex : Bool)
    (body : Except String String) : String :=
  pyStripS
    (if ex = false then
      "[ERROR] 文件未找到: " ++ kindWord ++ " 文件不存在: " ++ path
    else
      match body with
      | Except.ok t => t
      | Except.error m =>
          "[ERROR] 从 " ++ fromWord ++ " " ++ sglQuote ++ path ++ sglQuote ++
            " 提取文本时出错: " ++ m)

/-- `extract_pdf` (extractor.py, lines 46–81). -/
def extract_pdf (path : String) (ex : Bool) (body : Except String String) :
    String :=
  extractGuard "PDF" "PDF" path ex body

/-- `extract_excel` (extractor.py, lines 84–132). -/
def extract_excel (path : String) (ex : Bool) (body : Except String String) :
    String :=
  extractGuard "Excel" "Excel" path ex body

/-- `extract_markdown` (extractor.py, lines 135–195). -/
def extract_markdown (path : String) (ex : Bool)
    (body : Except String String) : String :=
  extractGuard "Markdown" "Markdown" path ex body

/-- `extract_word` (extractor.py, lines 198–249). -/
def extract_word (path : String) (ex : Bool) (body : Except String String) :
    String :=
  extractGuard "Word" "Word" path ex body

/-- `extract_csv` (extractor.py, lines 252–309). -/
def extract_csv (path : String) (ex : Bool) (body : Except String String) :
    String :=
  extractGuard "CSV" "CSV" path ex body

/-!
## quickstart/rag_basic.py — inline chunking loop (lines 66–87)

    start = 0
    idx = 0
    while start < len(txt):
        end = min(start + CHUNK_SIZE, len(txt))
        chunk_text = txt[start:end].strip()
        if not chunk_text:
            break
        chunks.append(chunk_text); metadatas.append(meta); idx += 1
        start = end - CHUNK_OVERLAP if end - CHUNK_OVERLAP > start else end
        if start >= len(txt):
            break

All position arithmetic stays non-negative here (`end - CHUNK_OVERLAP`
may go below `start`, in which case the `else end` branch is taken, matching
Python since a negative difference is never greater than `start ≥ 0`), so
positions are `Nat` and `e - ov` is truncated subtraction.
-/

/-- Python slice `l[a:b]` for natural indices. -/
def sliceN (l : List Char) (a b : Nat) : List Char :=
  (l.drop a).take (b - a)

/-- `CHUNK_SIZE` (quickstart/rag_basic.py, line 23). -/
def CHUNK_SIZE : Nat := 500

/-- `CHUNK_OVERLAP` (quickstart/rag_basic.py, line 24). -/
def CHUNK_OVERLAP : Nat := 100

/-- One-to-one embedding of the quickstart chunking loop for one document,
generalized over the two constants.  Fuel-indexed as `chunkLoopF`; the
fragments the loop appends are returned front to back. -/
def qsChunkLoopF (txt : List Char) (size ov : Nat) :
    Nat → Nat → Option (List (List Char))
  | 0, start =>
      if start < txt.length then none else some []
  | f + 1, start =>
      if start < txt.length then
        let e := min (start + size) txt.length
        let ck := pyStrip (sliceN txt start e)
        if ck.isEmpty then some []
        else
          let s2 := if e - ov > start then e - ov else e
          if s2 ≥ txt.length then some [ck]
          else
            match qsChunkLoopF txt size ov f s2 with
            | none => none
            | some rest => some (ck :: rest)
      else some []

/-- The quickstart loop run from the start of one document with fuel
`len(txt) + 1`. -/
def qs_chunk (txt : List Char) (size ov : Nat) : Option (List (List Char)) :=
  qsChunkLoopF txt size ov (txt.length + 1) 0

/-!
## Helper lemmas
-/

set_option maxRecDepth 8000

/-- An element that does not satisfy the predicate survives `dropWhile`. -/
theorem mem_dropWhile_of_neg {α : Type} {p : α → Bool} {x : α} :
    ∀ {l : List α}, x ∈ l → p x = false → x ∈ l.dropWhile p := by
  intro l
  induction l with
  | nil => intro h _; cases h
  | cons a as ih =>
    intro hx hpx
    rw [List.dropWhile_cons]
    by_cases hpa : p a = true
    · rw [if_pos hpa]
      rcases List.mem_cons.mp hx with rfl | hmem
      · rw [hpx] at hpa; cases hpa
      · exact ih hmem hpx
    · rw [if_neg hpa]
      exact hx

/-- A non-whitespace character of a list survives `pyStrip`. -/
theorem mem_pyStrip {x : Char} {l : List Char} (hx : x ∈ l)
    (hpx : pyIsSpace x = false) : x ∈ pyStrip l := by
  unfold pyStrip pyRstrip pyLstrip
  refine List.mem_reverse.mpr (mem_dropWhile_of_neg ?_ hpx)
  exact List.mem_reverse.mpr (mem_dropWhile_of_neg hx hpx)

/-- A character of the sliced range is in the slice. -/
theorem mem_pySlice {l : List Char} {a b : Int} {i : Nat} (hi : i < l.length)
    (ha : 0 ≤ a) (hai : a ≤ (i : Int)) (hib : (i : Int) < b) :
    l.get ⟨i, hi⟩ ∈ pySlice l a b := by
  unfold pySlice
  have h1 : i - a.toNat < ((l.drop a.toNat).take (b - a).toNat).length := by
    simp only [List.length_take, List.length_drop, lt_min_iff]
    omega
  have h2 : ((l.drop a.toNat).take (b - a).toNat).get ⟨i - a.toNat, h1⟩ =
      l.get ⟨i, hi⟩ := by
    simp only [List.get_eq_getElem, List.getElem_take, List.getElem_drop]
    congr 1
    omega
  rw [← h2]
  exact List.get_mem _ _ _


/-- `end` never exceeds the text length. -/
theorem winEnd_le_len (text : List Char) (cs start : Int) :
    winEnd text cs start ≤ (text.length : Int) :=
  min_le_right _ _

/-- `end` is one of its two clamp arguments. -/
theorem winEnd_choice (text : List Char) (cs start : Int) :
    winEnd text cs start = start + cs ∨
    winEnd text cs start = (text.length : Int) :=
  min_choice _ _

/-- Appending a window chunk preserves the fragments already collected. -/
theorem mem_pushChunk (text : List Char) (cs start : Int)
    {acc : List (List Char)} {c : List Char} (hc : c ∈ acc) :
    c ∈ pushChunk text cs start acc := by
  unfold pushChunk
  split
  · exact hc
  · exact List.mem_append_left _ hc

/-- A non-empty window chunk is appended by `pushChunk`. -/
theorem winChunk_mem_pushChunk (text : List Char) (cs start : Int)
    (acc : List (List Char)) (h : (winChunk text cs start).isEmpty = false) :
    winChunk text cs start ∈ pushChunk text cs start acc := by
  unfold pushChunk
  rw [if_neg (by simp [h])]
  exact List.mem_append_right _ (List.mem_singleton.mpr rfl)

/-- Whatever `chunkLoopF` has accumulated stays in its final result. -/
theorem chunkLoopF_mono (text : List Char) (cs ov : Int) :
    ∀ (f : Nat) (start : Int) (acc r : List (List Char)),
      chunkLoopF text cs ov f start acc = some r → ∀ c ∈ acc, c ∈ r := by
  intro f
  induction f with
  | zero =>
    intro start acc r h c hc
    simp only [chunkLoopF] at h
    by_cases hsl : start < (text.length : Int)
    · rw [if_pos hsl] at h; cases h
    · rw [if_neg hsl] at h
      cases h
      exact hc
  | succ f ih =>
    intro start acc r h c hc
    simp only [chunkLoopF] at h
    by_cases hsl : start < (text.length : Int)
    · rw [if_pos hsl] at h
      by_cases hbr : nextStart text cs ov start ≥ (text.length : Int) ∨
          winEnd text cs start = (text.length : Int)
      · rw [if_pos hbr] at h
        cases h
        exact mem_pushChunk text cs start hc
      · rw [if_neg hbr] at h
        exact ih _ _ _ h c (mem_pushChunk text cs start hc)
    · rw [if_neg hsl] at h
      cases h
      exact hc

/-- Fuel `len(text) - start` is always enough for the `simple_chunk_text`
loop when `0 < chunk_size` and `0 ≤ overlap < chunk_size`: each continued
iteration advances `start` by at least `chunk_size - overlap ≥ 1`. -/
theorem chunkLoopF_some (text : List Char) (cs ov : Int) (hcs : 0 < cs)
    (hov : 0 ≤ ov) (hlt : ov < cs) :
    ∀ (f : Nat) (start : Int) (acc : List (List Char)), 0 ≤ start →
      (text.length : Int) - start ≤ (f : Int) →
      ∃ r, chunkLoopF text cs ov f start acc = some r := by
  intro f
  induction f with
  | zero =>
    intro start acc h0 hf
    simp only [Nat.cast_zero] at hf
    refine ⟨acc, ?_⟩
    simp only [chunkLoopF]
    rw [if_neg (by omega)]
  | succ f ih =>
    intro start acc h0 hf
    push_cast at hf
    simp only [chunkLoopF]
    by_cases hsl : start < (text.length : Int)
    · rw [if_pos hsl]
      by_cases hbr : nextStart text cs ov start ≥ (text.length : Int) ∨
          winEnd text cs start = (text.length : Int)
      · rw [if_pos hbr]
        exact ⟨_, rfl⟩
      · rw [if_neg hbr]
        push_neg at hbr
        obtain ⟨h1, h2⟩ := hbr
        have hwe : winEnd text cs start = start + cs :=
          (winEnd_choice text cs start).resolve_right h2
        have hns : nextStart text cs ov start = start + cs - ov := by
          unfold nextStart
          rw [hwe, if_neg (by omega)]
        rw [hns]
        exact ih _ _ (by omega) (by omega)
    · rw [if_neg hsl]
      exact ⟨acc, rfl⟩

/-- Every non-whitespace character at or beyond the loop position ends up in
some fragment of the loop result. -/
theorem chunkLoopF_cover (text : List Char) (cs ov : Int) (hcs : 0 < cs)
    (hov : 0 ≤ ov) (hlt : ov < cs) :
    ∀ (f : Nat) (start : Int) (acc r : List (List Char)), 0 ≤ start →
      chunkLoopF text cs ov f start acc = some r →
      ∀ (i : Nat) (hi : i < text.length), start ≤ (i : Int) →
        pyIsSpace (text.get ⟨i, hi⟩) = false →
        ∃ c ∈ r, text.get ⟨i, hi⟩ ∈ c := by
  intro f
  induction f with
  | zero =>
    intro start acc r h0 h i hi hsi hsp
    simp only [chunkLoopF] at h
    rw [if_pos (by omega)] at h
    cases h
  | succ f ih =>
    intro start acc r h0 h i hi hsi hsp
    simp only [chunkLoopF] at h
    rw [if_pos (show start < (text.length : Int) by omega)] at h
    by_cases hie : (i : Int) < winEnd text cs start
    · -- the current window covers position i
      have hmem : text.get ⟨i, hi⟩ ∈ winChunk text cs start :=
        mem_pyStrip (mem_pySlice hi h0 hsi hie) hsp
      have hne : (winChunk text cs start).isEmpty = false := by
        cases hval : (winChunk text cs start).isEmpty
        · rfl
        · rw [List.isEmpty_iff] at hval
          rw [hval] at hmem
          cases hmem
      have hpc : winChunk text cs start ∈ pushChunk text cs start acc :=
        winChunk_mem_pushChunk text cs start acc hne
      by_cases hbr : nextStart text cs ov start ≥ (text.length : Int) ∨
          winEnd text cs start = (text.length : Int)
      · rw [if_pos hbr] at h
        cases h
        exact ⟨_, hpc, hmem⟩
      · rw [if_neg hbr] at h
        exact ⟨_, chunkLoopF_mono text cs ov _ _ _ _ h _ hpc, hmem⟩
    · -- position i lies beyond the current window: the loop cannot break here
      have hwlt : winEnd text cs start < (text.length : Int) := by omega
      have hwe : winEnd text cs start = start + cs := by
        rcases winEnd_choice text cs start with hh | hh
        · exact hh
        · omega
      have hns : nextStart text cs ov start = start + cs - ov := by
        unfold nextStart
        rw [hwe, if_neg (by omega)]
      rw [if_neg (by rw [hns, hwe]; omega)] at h
      rw [hns] at h
      exact ih _ _ _ (by omega) h i hi (by omega) hsp

/-!
## C5 / C8 — chunker guards and termination
-/

/-- C5: with a positive `chunk_size`, `simple_chunk_text` raises `ValueError`
(the `ConfigError` of the design) exactly when `overlap < chunk_size` is
violated, and returns normally whenever `0 ≤ overlap < chunk_size`. -/
theorem c5_config_error_iff (text : List Char) (cs ov : Int) (hcs : 0 < cs) :
    ((∃ m, simple_chunk_text text cs ov = Except.error m) ↔ cs ≤ ov) ∧
    (0 ≤ ov → ov < cs →
      ∃ r, simple_chunk_text text cs ov = Except.ok (some r)) := by
  constructor
  · constructor
    · rintro ⟨m, hm⟩
      unfold simple_chunk_text at hm
      rw [if_neg (by omega)] at hm
      by_cases hge : ov ≥ cs
      · omega
      · rw [if_neg hge] at hm
        cases hm
    · intro hle
      refine ⟨"overlap must be < chunk_size", ?_⟩
      unfold simple_chunk_text
      rw [if_neg (by omega), if_pos (by omega)]
  · intro hov hlt
    obtain ⟨r, hr⟩ := chunkLoopF_some text cs ov hcs hov hlt
      (text.length + 1) 0 [] le_rfl (by push_cast; omega)
    refine ⟨r, ?_⟩
    unfold simple_chunk_text
    rw [if_neg (by omega), if_neg (by omega), hr]

/-- Witness for `c5_config_error_iff` at `text = "ab"`, `chunk_size = 2`,
`overlap = 2` and `overlap = 1`. -/
theorem c5_config_error_iff_witness :
    (∃ m, simple_chunk_text "ab".data 2 2 = Except.error m) ∧
    (∃ r, simple_chunk_text "ab".data 2 1 = Except.ok (some r)) :=
  ⟨(c5_config_error_iff "ab".data 2 2 (by norm_num)).1.mpr (by norm_num),
   (c5_config_error_iff "ab".data 2 1 (by norm_num)).2 (by norm_num) (by norm_num)⟩

/-- C8: for `0 < chunk_size` and `0 ≤ overlap < chunk_size` the fixed-window
loop terminates — `len(text) + 1` iterations always complete (fuel exhaustion,
the `some none` outcome, is impossible), even when `overlap` is close to
`chunk_size`, because every continued iteration advances `start` by at least
`chunk_size - overlap ≥ 1` and the loop breaks once the window reaches the end
of the text. -/
theorem c8_termination (text : List Char) (cs ov : Int) (hcs : 0 < cs)
    (hov : 0 ≤ ov) (hlt : ov < cs) :
    ∃ r, simple_chunk_text text cs ov = Except.ok (some r) := by
  obtain ⟨r, hr⟩ := chunkLoopF_some text cs ov hcs hov hlt
    (text.length + 1) 0 [] le_rfl (by push_cast; omega)
  refine ⟨r, ?_⟩
  unfold simple_chunk_text
  rw [if_neg (by omega), if_neg (by omega), hr]

/-- Witness for `c8_termination`: chunking `"abcde"` with size 3, overlap 2
(overlap close to size) terminates. -/
theorem c8_termination_witness :
    ∃ r, simple_chunk_text "abcde".data 3 2 = Except.ok (some r) :=
  c8_termination "abcde".data 3 2 (by norm_num) (by norm_num) (by norm_num)

/-!
## C1 — coverage of the input by the emitted fragments
-/

/-- C1 counterexample: the claim says every character of the input is covered
by at least one emitted fragment, but chunking the one-character text `" "`
with `size = 1`, `overlap = 0` succeeds and emits no fragment at all — the
whitespace-only window is stripped to the empty string and discarded, so the
single input character is covered by nothing. -/
theorem c1_counterexample :
    simple_chunk_text " ".data 1 0 = Except.ok (some []) ∧
    " ".data.length = 1 :=
  ⟨rfl, rfl⟩

/-- C1 amended: every character of the text lies in some loop window, and
every non-whitespace character of the text occurs in at least one emitted
fragment; whitespace characters may be dropped because each window is
stripped before being emitted. -/
theorem c1_nonspace_coverage (text : List Char) (cs ov : Int) (hcs : 0 < cs)
    (hov : 0 ≤ ov) (hlt : ov < cs) (r : List (List Char))
    (hr : simple_chunk_text text cs ov = Except.ok (some r)) :
    ∀ (i : Nat) (hi : i < text.length), pyIsSpace (text.get ⟨i, hi⟩) = false →
      ∃ c ∈ r, text.get ⟨i, hi⟩ ∈ c := by
  intro i hi hsp
  have hloop : chunkLoopF text cs ov (text.length + 1) 0 [] = some r := by
    unfold simple_chunk_text at hr
    rw [if_neg (by omega), if_neg (by omega)] at hr
    simpa using hr
  exact chunkLoopF_cover text cs ov hcs hov hlt _ 0 [] r le_rfl hloop i hi
    (by omega) hsp

/-- Witness for `c1_nonspace_coverage`: in `simple_chunk_text "ab" 1 0`
the character at position 0 appears in an emitted fragment. -/
theorem c1_nonspace_coverage_witness :
    ∃ c ∈ [['a'], ['b']], 'a' ∈ c :=
  c1_nonspace_coverage "ab".data 1 0 (by norm_num) (le_refl 0) (by norm_num)
    [['a'], ['b']] rfl 0 (by decide) rfl

/-!
## C4 — edge cases of `simple_chunk_text`
-/

/-- C4 counterexample: the claim says a text strictly shorter than `size`
yields exactly one fragment, but the whitespace-only text `" "` of length 1
chunked with `size = 2`, `overlap = 0` yields zero fragments (its single
window strips to the empty string and is discarded). -/
theorem c4_counterexample :
    " ".data.length = 1 ∧ ((1 : Int) < 2) ∧
    simple_chunk_text " ".data 2 0 = Except.ok (some []) :=
  ⟨rfl, by norm_num, rfl⟩

/-- C4 amended: chunking the empty text yields an empty fragment sequence
without error, and chunking a nonempty text strictly shorter than `size`
yields exactly one fragment — the stripped text — when the text strips to
something non-empty, and zero fragments when the text is entirely
whitespace. -/
theorem c4_edge_cases (text : List Char) (cs ov : Int) (hcs : 0 < cs)
    (hov : 0 ≤ ov) (hlt : ov < cs) :
    simple_chunk_text [] cs ov = Except.ok (some []) ∧
    (0 < text.length → (text.length : Int) < cs →
      simple_chunk_text text cs ov =
        Except.ok (some (if pyStrip text = [] then [] else [pyStrip text]))) := by
  constructor
  · unfold simple_chunk_text
    rw [if_neg (by omega), if_neg (by omega)]
    simp only [chunkLoopF, List.length_nil]
    rw [if_neg (by norm_num)]
  · intro hpos hlen
    unfold simple_chunk_text
    rw [if_neg (by omega), if_neg (by omega)]
    have hs : (0 : Int) < (text.length : Int) := by omega
    have hwe : winEnd text cs 0 = (text.length : Int) := by
      unfold winEnd
      rw [min_eq_right (by omega)]
    simp only [chunkLoopF]
    rw [if_pos hs, if_pos (Or.inr hwe)]
    have hsl : pySlice text 0 (text.length : Int) = text := by
      unfold pySlice
      simp
    unfold pushChunk winChunk
    rw [hwe, hsl]
    by_cases hemp : pyStrip text = []
    · rw [if_pos (by simp [hemp]), if_pos hemp]
    · rw [if_neg (by simp [hemp]), if_neg hemp]
      rw [List.nil_append]

/-- Witness for `c4_edge_cases`: the empty text gives no fragments with
size 2, overlap 0, and the one-character text `"a"` (shorter than size 2)
gives its single stripped fragment. -/
theorem c4_edge_cases_witness :
    simple_chunk_text [] 2 0 = Except.ok (some []) ∧
    simple_chunk_text "a".data 2 0 =
      Except.ok (some (if pyStrip "a".data = [] then [] else [pyStrip "a".data])) :=
  ⟨(c4_edge_cases [] 2 0 (by norm_num) (le_refl 0) (by norm_num)).1,
   (c4_edge_cases "a".data 2 0 (by norm_num) (le_refl 0) (by norm_num)).2
     (by decide) (by decide)⟩

/-!
## C2 / C7 — batched embedding
-/

/-- Bounded-length auxiliary form of `embedBatches_flatten`. -/
theorem embedBatches_flatten_aux (bs : Nat) :
    ∀ (n : Nat) (l : List String), l.length ≤ n →
      (embedBatches bs l).flatten = l := by
  intro n
  induction n with
  | zero =>
    intro l hl
    have hnil : l = [] := List.eq_nil_of_length_eq_zero (by omega)
    subst hnil
    simp [embedBatches]
  | succ n ih =>
    intro l hl
    cases l with
    | nil => simp [embedBatches]
    | cons t ts =>
      simp only [List.length_cons] at hl
      simp only [embedBatches, List.flatten_cons]
      rw [ih _ (by rw [List.length_drop]; omega)]
      rw [List.cons_append, List.take_append_drop]

/-- The batches `texts[i:i+bs]` concatenate back to the input, in order. -/
theorem embedBatches_flatten (bs : Nat) (l : List String) :
    (embedBatches bs l).flatten = l :=
  embedBatches_flatten_aux bs l.length l le_rfl

/-- Bounded-length auxiliary form of `embedBatches_length_le`. -/
theorem embedBatches_length_le_aux (bs : Nat) (hbs : 0 < bs) :
    ∀ (n : Nat) (l : List String), l.length ≤ n →
      ∀ b ∈ embedBatches bs l, b.length ≤ bs := by
  intro n
  induction n with
  | zero =>
    intro l hl b hb
    have hnil : l = [] := List.eq_nil_of_length_eq_zero (by omega)
    subst hnil
    simp [embedBatches] at hb
  | succ n ih =>
    intro l hl b hb
    cases l with
    | nil => simp [embedBatches] at hb
    | cons t ts =>
      simp only [List.length_cons] at hl
      simp only [embedBatches, List.mem_cons] at hb
      rcases hb with rfl | hb
      · simp only [List.length_cons, List.length_take]
        omega
      · exact ih _ (by rw [List.length_drop]; omega) b hb

/-- Every batch `texts[i:i+bs]` has at most `bs` elements. -/
theorem embedBatches_length_le (bs : Nat) (hbs : 0 < bs) (l : List String) :
    ∀ b ∈ embedBatches bs l, b.length ≤ bs :=
  embedBatches_length_le_aux bs hbs l.length l le_rfl

/-- C2: when the provider returns exactly one vector per text of each batch
(modelled by a pointwise provider `provider b = b.map f`), `embed_text`
returns one vector per input text in the original input order; moreover every
batch it can send has at most `DEFAULT_TOP_RERANK = 10` texts, and the batches
concatenate to the input in order. -/
theorem c2_embed_batching {V : Type} (f : String → V)
    (provider : List String → List V) (hp : ∀ b, provider b = b.map f)
    (texts : List String) :
    embed_text provider texts = texts.map f ∧
    (∀ b ∈ embedBatches DEFAULT_TOP_RERANK texts,
      b.length ≤ DEFAULT_TOP_RERANK) ∧
    (embedBatches DEFAULT_TOP_RERANK texts).flatten = texts := by
  refine ⟨?_, embedBatches_length_le _ (by norm_num [DEFAULT_TOP_RERANK]) texts,
    embedBatches_flatten _ _⟩
  unfold embed_text
  by_cases hlen : texts.length > DEFAULT_TOP_RERANK
  · rw [if_pos hlen]
    have hmap : (embedBatches DEFAULT_TOP_RERANK texts).map provider =
        (embedBatches DEFAULT_TOP_RERANK texts).map (List.map f) :=
      List.map_congr_left (fun b _ => hp b)
    rw [hmap, ← List.map_flatten, embedBatches_flatten]
  · rw [if_neg hlen, hp texts]

/-- Witness for `c2_embed_batching` with a concrete pointwise provider. -/
theorem c2_embed_batching_witness :
    embed_text (fun b => b.map String.length) ["a", "bb", "ccc"] =
      ["a", "bb", "ccc"].map String.length :=
  (c2_embed_batching String.length (fun b => b.map String.length)
    (fun _ => rfl) ["a", "bb", "ccc"]).1

/-- C7 counterexample: the claim says the embed operation fails with a count
error whenever the provider returns a number of vectors different from the
number of inputs, but `embed_text` performs no count check at all: with a
provider returning zero vectors for the single input `"a"` it silently
returns the empty list (its return type has no error channel — the Python
function has no raise on this path). -/
theorem c7_counterexample :
    embed_text (fun _ => ([] : List (List Int))) ["a"] = [] ∧
    (["a"] : List String).length = 1 :=
  ⟨rfl, rfl⟩

/-- C7 amended: `embed_text` itself performs no count validation; the count
check lives in the driver `embedder.main`, which raises `RuntimeError` (not a
`CountMismatchError`) when the total number of vectors differs from the
number of inputs, and at that driver level a wrong-length result is never
silently returned. -/
theorem c7_count_check (V : Type) (provider : List String → List V)
    (texts : List String) :
    (∀ r, embed_main_check provider texts = Except.ok r →
      r.length = texts.length ∧ r = embed_text provider texts) ∧
    ((embed_text provider texts).length ≠ texts.length →
      embed_main_check provider texts =
        Except.error "embeddings 数量与文本数量不一致") := by
  constructor
  · intro r hr
    simp only [embed_main_check] at hr
    by_cases h : (embed_text provider texts).length ≠ texts.length
    · rw [if_pos h] at hr
      cases hr
    · rw [if_neg h] at hr
      cases hr
      exact ⟨not_not.mp h, rfl⟩
  · intro h
    simp only [embed_main_check]
    rw [if_pos h]

/-- Witness for `c7_count_check`: the driver check rejects the
zero-vector provider on one input. -/
theorem c7_count_check_witness :
    embed_main_check (fun _ => ([] : List (List Int))) ["a"] =
      Except.error "embeddings 数量与文本数量不一致" :=
  (c7_count_check (List Int) (fun _ => []) ["a"]).2 (by decide)

/-!
## C3 / C6 — prompt assembly
-/

/-- `promptParts` yields one labeled part per document. -/
theorem promptParts_length (docs : List RDoc) :
    ∀ s, (promptParts s docs).length = docs.length := by
  induction docs with
  | nil => intro s; rfl
  | cons d ds ih =>
    intro s
    simp only [promptParts, List.length_cons, ih]

/-- The part at position `i` of `promptParts s docs` is document `i` labeled
`s + i`. -/
theorem promptParts_getElem (docs : List RDoc) :
    ∀ (s i : Nat) (h : i < docs.length),
      (promptParts s docs)[i]? = some (fmtPart (s + i) (docs.get ⟨i, h⟩)) := by
  induction docs with
  | nil =>
    intro s i h
    exact absurd h (Nat.not_lt_zero i)
  | cons d ds ih =>
    intro s i h
    cases i with
    | zero =>
      simp only [promptParts, List.getElem?_cons_zero, Nat.add_zero]
      rfl
    | succ i =>
      simp only [promptParts, List.getElem?_cons_succ]
      rw [ih (s + 1) i (Nat.lt_of_succ_lt_succ h)]
      have harith : s + 1 + i = s + (i + 1) := by omega
      rw [harith]
      rfl

/-- C3 counterexample: with an empty retrieval-result list, `make_prompt`
does not produce an instruction saying that no relevant material was found —
it falls through to its one generic template with an empty context section;
the phrase `未检索到相关文档` telling the model nothing was retrieved (the
one `build_prompt` uses for this case) appears nowhere in the output. -/
theorem c3_counterexample :
    make_prompt "q" [] = mkHeader ++ "\n用户问题：q" ++ mkTail ∧
    ¬ ("未检索到相关文档".data <:+: (make_prompt "q" []).data) := by
  constructor
  · rfl
  · decide

/-- C3 amended: the quickstart assembler `build_prompt` does satisfy the
claim — on an empty result list it returns exactly the instruction that no
relevant documents were retrieved (`未检索到相关文档`) and that the model
should answer with the unknown marker `我不知道` instead of guessing; the
`make_prompt` assembler of llm_with_rag.py has no such branch (see the
counterexample). -/
theorem c3_empty_prompt (q : String) :
    build_prompt q [] =
      "用户问题：" ++ q ++ "\n\n注意：未检索到相关文档，请回答\"我不知道\"。" ∧
    ("未检索到相关文档".data <:+: (build_prompt q []).data) ∧
    ("我不知道".data <:+: (build_prompt q []).data) := by
  refine ⟨rfl, ?_, ?_⟩
  · show ("未检索到相关文档".data <:+:
      ("用户问题：" ++ q ++ "\n\n注意：未检索到相关文档，请回答\"我不知道\"。").data)
    rw [String.data_append]
    exact List.IsInfix.trans (by decide) (List.suffix_append _ _).isInfix
  · show ("我不知道".data <:+:
      ("用户问题：" ++ q ++ "\n\n注意：未检索到相关文档，请回答\"我不知道\"。").data)
    rw [String.data_append]
    exact List.IsInfix.trans (by decide) (List.suffix_append _ _).isInfix

/-- C6: for a non-empty result list, the assembled prompts consist of one
part per fragment in ranking order, the `i`-th part being the fragment text
labeled with 1-based position `i + 1` and its source; the parts are followed
by the verbatim query and the fixed closing instruction (`mkTail` resp.
`bpTail`, which restrict the model to the supplied fragments and ask it to
cite the sources), after the fixed opening instruction (`mkHeader` resp.
`bpHeader`). -/
theorem c6_prompt_structure (q : String) (docs : List RDoc)
    (hne : docs ≠ []) :
    (promptParts 1 docs).length = docs.length ∧
    (∀ (i : Nat) (h : i < docs.length),
      (promptParts 1 docs)[i]? = some (fmtPart (i + 1) (docs.get ⟨i, h⟩))) ∧
    make_prompt q docs =
      mkHeader ++ String.intercalate "\n" (promptParts 1 docs) ++
        "\n用户问题：" ++ q ++ mkTail ∧
    build_prompt q docs =
      bpHeader ++ "已检索到的片段：\n" ++
        String.intercalate "\n" (promptParts 1 docs) ++ "\n\n用户问题：" ++
        q ++ "\n\n" ++ bpTail := by
  refine ⟨promptParts_length docs 1, ?_, rfl, ?_⟩
  · intro i h
    rw [promptParts_getElem docs 1 i h]
    have harith : 1 + i = i + 1 := by omega
    rw [harith]
  · unfold build_prompt
    rw [if_neg (by simp [List.isEmpty_iff, hne])]

/-- Witness for `c6_prompt_structure` on two concrete documents. -/
theorem c6_prompt_structure_witness :
    (promptParts 1 [RDoc.mk "alpha" (some "doc.md"), RDoc.mk "beta" none]).length =
      ([RDoc.mk "alpha" (some "doc.md"), RDoc.mk "beta" none] : List RDoc).length ∧
    (promptParts 1 [RDoc.mk "alpha" (some "doc.md"), RDoc.mk "beta" none])[0]? =
      some (fmtPart 1
        (([RDoc.mk "alpha" (some "doc.md"), RDoc.mk "beta" none] : List RDoc).get
          ⟨0, by decide⟩)) :=
  ⟨(c6_prompt_structure "q" _ (by simp)).1,
   (c6_prompt_structure "q" _ (by simp)).2.1 0 (by decide)⟩

/-!
## C9 — extractor error strings
-/

/-- `rstrip` never removes anything at or before a trailing non-whitespace
character: the part up to and including that character survives as a
prefix. -/
theorem pyRstrip_keeps_front (x : List Char) (c : Char) (y : List Char)
    (hc : pyIsSpace c = false) : x ++ [c] <+: pyRstrip (x ++ c :: y) := by
  unfold pyRstrip
  have hxc : (x ++ [c]).reverse = c :: x.reverse := by simp
  rw [show x ++ c :: y = (x ++ [c]) ++ y by simp]
  rw [List.reverse_append, List.dropWhile_append]
  by_cases hd : (y.reverse.dropWhile pyIsSpace).isEmpty = true
  · rw [if_pos hd, hxc, List.dropWhile_cons, if_neg (by simp [hc]),
      List.reverse_cons, List.reverse_reverse]
  · rw [if_neg hd]
    rw [List.reverse_append, hxc, List.reverse_cons, List.reverse_reverse]
    rw [show x ++ [c] ++ (y.reverse.dropWhile pyIsSpace).reverse =
      (x ++ [c]) ++ (y.reverse.dropWhile pyIsSpace).reverse by simp]
    exact List.prefix_append _ _

/-- `strip` keeps the `"[ERROR]"` prefix of any list that starts with `'['`,
has `"[ERROR]"` as a prefix of its fixed head `a`, and contains some
non-whitespace character `c` after the variable middle. -/
theorem pyStrip_keeps_errmark (a b : List Char) (c : Char) (d : List Char)
    (ha : ∃ t, a = '[' :: t) (hpre : "[ERROR]".data <+: a)
    (hc : pyIsSpace c = false) :
    "[ERROR]".data <+: pyStrip (a ++ b ++ c :: d) := by
  obtain ⟨t, rfl⟩ := ha
  unfold pyStrip pyLstrip
  rw [show ('[' :: t) ++ b ++ c :: d = '[' :: (t ++ b ++ c :: d) by simp]
  rw [List.dropWhile_cons, if_neg (by decide)]
  rw [show '[' :: (t ++ b ++ c :: d) = (('[' :: t) ++ b) ++ c :: d by simp]
  have key := pyRstrip_keeps_front (('[' :: t) ++ b) c d hc
  have h2 : ('[' :: t) <+: (('[' :: t) ++ b) ++ [c] := by
    rw [List.append_assoc]
    exact List.prefix_append _ _
  exact (hpre.trans h2).trans key

/-- The not-found branch of every extractor function returns a string whose
characters start with `"[ERROR]"`. -/
theorem extractGuard_notfound_marked (kw fw path : String)
    (body : Except String String) :
    "[ERROR]".data <+: (extractGuard kw fw path false body).data := by
  show "[ERROR]".data <+:
    pyStrip ("[ERROR] 文件未找到: " ++ kw ++ " 文件不存在: " ++ path).data
  have hdecomp : ("[ERROR] 文件未找到: " ++ kw ++ " 文件不存在: " ++ path).data =
      "[ERROR] 文件未找到: ".data ++ (kw.data ++ [' ']) ++
        '文' :: ("件不存在: ".data ++ path.data) := by
    simp only [String.data_append, List.append_assoc]
    rfl
  rw [hdecomp]
  exact pyStrip_keeps_errmark _ _ '文' _ ⟨"ERROR] 文件未找到: ".data, rfl⟩
    (by decide) (by decide)

/-- The generic-exception branch of every extractor function returns a string
whose characters start with `"[ERROR]"`. -/
theorem extractGuard_raise_marked (kw fw path m : String) :
    "[ERROR]".data <+: (extractGuard kw fw path true (Except.error m)).data := by
  show "[ERROR]".data <+:
    pyStrip ("[ERROR] 从 " ++ fw ++ " " ++ sglQuote ++ path ++ sglQuote ++
      " 提取文本时出错: " ++ m).data
  have hdecomp : ("[ERROR] 从 " ++ fw ++ " " ++ sglQuote ++ path ++ sglQuote ++
      " 提取文本时出错: " ++ m).data =
      "[ERROR] 从 ".data ++
        (fw.data ++ " ".data ++ sglQuote.data ++ path.data ++ sglQuote.data ++
          [' ']) ++
        '提' :: ("取文本时出错: ".data ++ m.data) := by
    simp only [String.data_append, List.append_assoc]
    rfl
  rw [hdecomp]
  exact pyStrip_keeps_errmark _ _ '提' _ ⟨"ERROR] 从 ".data, rfl⟩
    (by decide) (by decide)

/-- C9: for a missing file (the `exists` oracle is `false`) and for a body
that raises (the `body` oracle is an `error`), each of the five extraction
functions returns a string beginning with `"[ERROR]"` instead of raising — the
error message is returned as if it were extracted document text. -/
theorem c9_extractor_error_strings (path m : String)
    (body : Except String String) :
    ("[ERROR]".data <+: (extract_pdf path false body).data) ∧
    ("[ERROR]".data <+: (extract_pdf path true (Except.error m)).data) ∧
    ("[ERROR]".data <+: (extract_excel path false body).data) ∧
    ("[ERROR]".data <+: (extract_excel path true (Except.error m)).data) ∧
    ("[ERROR]".data <+: (extract_markdown path false body).data) ∧
    ("[ERROR]".data <+: (extract_markdown path true (Except.error m)).data) ∧
    ("[ERROR]".data <+: (extract_word path false body).data) ∧
    ("[ERROR]".data <+: (extract_word path true (Except.error m)).data) ∧
    ("[ERROR]".data <+: (extract_csv path false body).data) ∧
    ("[ERROR]".data <+: (extract_csv path true (Except.error m)).data) :=
  ⟨extractGuard_notfound_marked "PDF" "PDF" path body,
   extractGuard_raise_marked "PDF" "PDF" path m,
   extractGuard_notfound_marked "Excel" "Excel" path body,
   extractGuard_raise_marked "Excel" "Excel" path m,
   extractGuard_notfound_marked "Markdown" "Markdown" path body,
   extractGuard_raise_marked "Markdown" "Markdown" path m,
   extractGuard_notfound_marked "Word" "Word" path body,
   extractGuard_raise_marked "Word" "Word" path m,
   extractGuard_notfound_marked "CSV" "CSV" path body,
   extractGuard_raise_marked "CSV" "CSV" path m⟩

/-!
## C10 — the quickstart loop discards the rest of a document at an
all-whitespace window
-/

/-- C10: whenever the quickstart chunking loop reaches a position `start`
strictly inside the text whose window strips to the empty string, it stops at
that window and produces no further fragments — all remaining text of the
document is discarded.  Concretely, chunking `"ab    cd"` with size 2 and
overlap 0 yields only `["ab"]`: the all-blank window at positions 2..3 breaks
the loop and the trailing `"cd"` is never emitted. -/
theorem c10_break_discards :
    (∀ (txt : List Char) (size ov f start : Nat), start < txt.length →
      pyStrip (sliceN txt start (min (start + size) txt.length)) = [] →
      qsChunkLoopF txt size ov (f + 1) start = some []) ∧
    qs_chunk "ab    cd".data 2 0 = some ["ab".data] := by
  constructor
  · intro txt size ov f start hs hw
    simp only [qsChunkLoopF]
    rw [if_pos hs, hw]
    rfl
  · rfl

/-- Witness for `c10_break_discards`: in the text `"  a"` with size 1 and
overlap 0 the first window is the single blank at position 0, so the loop
stops immediately with no fragments even though `'a'` follows. -/
theorem c10_break_discards_witness :
    qsChunkLoopF "  a".data 1 0 1 0 = some [] :=
  c10_break_discards.1 "  a".data 1 0 0 0 (by decide) (by decide)
